import Mathlib

set_option maxHeartbeats 1000000

/-!
Shallow embedding of `alphabuddy.py` (eberhage/alphabuddy, v1.1.0), a
single-worker batch orchestrator that watches an `input/` directory for YAML
job descriptors, runs an external AlphaFold pipeline on each, and routes the
descriptor file to `done_jobs/` or `failed_jobs/` according to the pipeline's
exit code.

Modelling conventions:
* Filesystem paths are plain strings; `Path.resolve()` is the identity (inputs
  are taken as already-absolute), and `a / b` is `a ++ "/" ++ b`.
* A parsed YAML descriptor is a `Descriptor` record of the keys the program
  reads; `yaml.safe_load` outcomes on queue files are a `ParseResult`
  (exception, a non-mapping document such as `None` from an empty file, or a
  mapping).
* `datetime.datetime.now()` is a strictly increasing tick counter: the start
  tick is taken at job construction and the end tick strictly later, after the
  blocking pipeline subprocess has run.
* `sys.exit(1)` inside settings validation is the non-`ok` constructors of
  `SettingsCheck`; an uncaught Python exception in the worker loop is either
  `SelectResult.crash` (selection) or `IterOut.crashed = true` (iteration).
* Side effects of one pass of the `while True:` loop body in `main` are
  recorded as an ordered list of `Event`s.
-/

/-- One element of a descriptor's `sequences` list as produced by YAML: either
a mapping of name to sequence (insertion-ordered pairs) or a bare scalar, which
has no `.items()` method. -/
inductive SeqEntry where
  | map (items : List (String × String))
  | scalar (s : String)
deriving DecidableEq

/-- The YAML value found under the `sequences` key: a list of entries, or any
non-list value (mapping or scalar), which `check_config` rejects and whose
iteration in `generate_fasta` would raise. -/
inductive SeqsVal where
  | list (entries : List SeqEntry)
  | nonList
deriving DecidableEq

/-- A parsed job descriptor mapping: the keys `alphabuddy.py` reads, each
absent (`none`) when the YAML mapping lacks the key. `urgent = some true`
models the value being the literal `True`. -/
structure Descriptor where
  version : Option String := none
  name : Option String := none
  urgent : Option Bool := none
  sequences : Option SeqsVal := none
  max_template_date : Option String := none
  output_dir : Option String := none
  model_preset : Option String := none
  num_multimer_predictions_per_model : Option String := none
  models_to_relax : Option String := none
  alphaplots : Option (List String) := none
deriving DecidableEq

/-- Outcome of `yaml.safe_load` on a queue file: the load raises (`err`), the
document is not a mapping — e.g. an empty file loads to `None`, on which the
test `"urgent" in job_dict` raises `TypeError` (`nullDoc`) — or a mapping
(`dict`). -/
inductive ParseResult where
  | err
  | nullDoc
  | dict (d : Descriptor)
deriving DecidableEq

/-- A file in the `input/` queue directory: its name, its modification time
(`os.path.getmtime`), and what loading it yields. -/
structure QFile where
  fname : String
  mtime : Nat
  parsed : ParseResult
deriving DecidableEq

/-- Ordering used by `jobs.sort(key=lambda x: os.path.getmtime(x))`. -/
def mleP (a b : QFile) : Prop := a.mtime ≤ b.mtime

instance : DecidableRel mleP := fun a b => Nat.decLe a.mtime b.mtime

instance : IsTotal QFile mleP := ⟨fun a b => Nat.le_total a.mtime b.mtime⟩

instance : IsTrans QFile mleP := ⟨fun _ _ _ hab hbc => Nat.le_trans hab hbc⟩

/-- Result of one call to `get_next_job`: `noJob` models `return False` with
no side effect, `movedFailed f` models moving `f` to `failed_jobs` and then
returning `False`, `found f` models returning the path of `f`, and `crash`
models an uncaught `TypeError` from `"urgent" in job_dict`. -/
inductive SelectResult where
  | noJob
  | found (f : QFile)
  | movedFailed (f : QFile)
  | crash
deriving DecidableEq

/-- Intermediate result of the `for job in jobs:` loop inside `get_next_job`:
`fellThrough` means the loop finished without returning, after which the
function returns `jobs[0]`. -/
inductive LoopResult where
  | fellThrough
  | found (f : QFile)
  | movedFailed (f : QFile)
  | crash
deriving DecidableEq

/-- Body of the `for job in jobs:` loop in `get_next_job` (lines 249-260):
a file whose load raises is moved to `failed_jobs` and the function returns
`False`; a non-mapping document makes `"urgent" in job_dict` raise; a mapping
flagged `urgent: true` is returned; otherwise the loop continues. -/
def selectLoop : List QFile → LoopResult
  | [] => .fellThrough
  | j :: rest =>
    match j.parsed with
    | .err => .movedFailed j
    | .nullDoc => .crash
    | .dict dct =>
      match dct.urgent with
      | some true => .found j
      | _ => selectLoop rest

/-- Embedding of `get_next_job` (lines 244-261): with an empty candidate list
return `False`; otherwise sort by modification time, scan for the oldest
urgent candidate, and fall back to the oldest candidate overall. -/
def get_next_job (queue : List QFile) : SelectResult :=
  match List.insertionSort mleP queue with
  | [] => .noJob
  | j :: rest =>
    match selectLoop (j :: rest) with
    | .fellThrough => .found j
    | .found f => .found f
    | .movedFailed f => .movedFailed f
    | .crash => .crash

/-- True when the file's document is a mapping. -/
def isDictB (f : QFile) : Bool :=
  match f.parsed with
  | .dict _ => true
  | _ => false

/-- True when the file's document is a mapping whose `urgent` key holds the
literal `True`. -/
def urgentDict (f : QFile) : Bool :=
  match f.parsed with
  | .dict dct =>
    match dct.urgent with
    | some true => true
    | _ => false
  | _ => false

/-- Discriminator: did `get_next_job` return a selected file? -/
def isFound : SelectResult → Bool
  | .found _ => true
  | _ => false

/-- One entry of `settings["versions"]`: the three required path fields (an
absent or empty YAML value is the empty string, which is falsy in Python), the
`default` flag (`true` models the literal `True`), and the optional container
image name. -/
structure VersionEntry where
  data_dir : String := ""
  path : String := ""
  venv : String := ""
  default : Bool := false
  docker_image_name : Option String := none
deriving DecidableEq

/-- The `alphaplots` block of the settings file, when present and truthy. -/
structure APSettings where
  path : String := ""
  venv : Option String := none
deriving DecidableEq

/-- The parsed global settings mapping: `versions` is an insertion-ordered
mapping of version id to entry; the remaining keys are optional. -/
structure Settings where
  versions : List (String × VersionEntry) := []
  docker_user : Option String := none
  output_dir : Option String := none
  alphaplots : Option APSettings := none
deriving DecidableEq

/-- Outcome of `check_settings` (lines 159-199): `ok` means the function
returns normally; every other constructor is a `sys.exit(1)` taken before any
job is processed (the call sits in `main` ahead of the worker loop). -/
inductive SettingsCheck where
  | ok
  | exitNoDefault
  | exitMissingField (version item : String)
  | exitNotDir (version item : String)
deriving DecidableEq

/-- Check of the three required items of one version entry, in the source
order `data_dir`, `path`, `venv`: a falsy value exits, then a value that is
not an existing directory exits. `dirs` is the set of directories existing on
the filesystem. -/
def checkVersionItems (version : String) (e : VersionEntry) (dirs : List String) :
    SettingsCheck :=
  if e.data_dir = "" then .exitMissingField version "data_dir"
  else if ¬ dirs.contains e.data_dir then .exitNotDir version "data_dir"
  else if e.path = "" then .exitMissingField version "path"
  else if ¬ dirs.contains e.path then .exitNotDir version "path"
  else if e.venv = "" then .exitMissingField version "venv"
  else if ¬ dirs.contains e.venv then .exitNotDir version "venv"
  else .ok

/-- The `for version, details in settings["versions"].items():` loop of
`check_settings`, exiting at the first failing item. -/
def checkVersionsList : List (String × VersionEntry) → List String → SettingsCheck
  | [], _ => .ok
  | (v, e) :: rest, dirs =>
    match checkVersionItems v e dirs with
    | .ok => checkVersionsList rest dirs
    | r => r

/-- Embedding of `check_settings` (lines 159-199). `default_version` is the
FIRST version whose `default` is the literal `True` (`next(..., None)`); the
code exits only when that yields `None` — or a falsy (empty) version id —
and otherwise proceeds to the per-version directory checks. Note that a
second `default: true` entry is never rejected. -/
def check_settings (s : Settings) (dirs : List String) : SettingsCheck :=
  match s.versions.find? (fun p => p.2.default) with
  | none => .exitNoDefault
  | some p =>
    if p.1 = "" then .exitNoDefault
    else checkVersionsList s.versions dirs

/-- Number of versions flagged default in the settings. -/
def countDefaults (s : Settings) : Nat :=
  (s.versions.filter (fun p => p.2.default)).length

/-- Value of the `alphaplots` attribute of an `AlphaFoldJob`: absent (the
descriptor had no such key), the descriptor's options, or the literal `False`
assigned by `main` when plotting is globally disabled. -/
inductive APField where
  | absent
  | opts (flags : List String)
  | disabled
deriving DecidableEq

/-- The fully resolved in-memory job built by `create_alphafold_job` and
`AlphaFoldJob.__init__` (lines 49-61, 300-329). `start_time` is the tick at
which `datetime.datetime.now()` was taken in the constructor. -/
structure AlphaFoldJob where
  version : String
  name : String
  sequences : Option SeqsVal
  max_template_date : String
  output_dir : String
  data_dir : String
  alphafold_path : String
  alphafold_venv : String
  docker_user : String
  docker_image_name : Option String
  model_preset : Option String
  num_multimer_predictions_per_model : Option String
  models_to_relax : Option String
  alphaplots : APField
  start_time : Nat
  job_dir : String
  fasta_paths : String
deriving DecidableEq

/-- Embedding of `check_config` (lines 264-297) on an already-loaded mapping
(`main` reaches this call only with a file selection already proved to load to
a mapping): reject a `version` key absent from the settings versions, then a
missing `sequences` key, then a `sequences` value that is not a non-empty
list. The `sequences` checks (lines 282-295) are split out because the
`version` check precedes them and returns early. -/
def check_config_sequences (d : Descriptor) : Bool :=
  match d.sequences with
  | none => false
  | some .nonList => false
  | some (.list entries) => ¬ entries.isEmpty

/-- Embedding of `check_config` (lines 264-297), continued: the `version`
check (lines 272-280) runs first. -/
def check_config (d : Descriptor) (s : Settings) : Bool :=
  match d.version with
  | some v =>
    if ¬ s.versions.any (fun p => p.1 == v) then false
    else check_config_sequences d
  | none => check_config_sequences d

/-- Embedding of `create_alphafold_job` plus the path derivations of
`AlphaFoldJob.__init__` (lines 49-61, 300-329). `stem` is the descriptor
file's stem, `resultsDir` the value of `args.directory / "results"`, `today`
today's date string, and `clock` the current tick. The `setdefault` call for
`version` evaluates `next(...)` eagerly, so a settings mapping with no truthy
`default` raises `StopIteration` (`none`) even when the descriptor names a
version; an unknown version id would raise `KeyError` (`none`), though
`check_config` has already ruled that out on the `main` path. -/
def create_alphafold_job (stem : String) (d : Descriptor) (s : Settings)
    (resultsDir : String) (today : String) (clock : Nat) : Option AlphaFoldJob :=
  match s.versions.find? (fun p => p.2.default) with
  | none => none
  | some pd =>
    let ver := d.version.getD pd.1
    match s.versions.find? (fun p => p.1 == ver) with
    | none => none
    | some pv =>
      let name := d.name.getD stem
      let output_dir := d.output_dir.getD (s.output_dir.getD resultsDir)
      some
        { version := ver
          name := name
          sequences := d.sequences
          max_template_date := d.max_template_date.getD today
          output_dir := output_dir
          data_dir := pv.2.data_dir
          alphafold_path := pv.2.path
          alphafold_venv := pv.2.venv
          docker_user := s.docker_user.getD "root"
          docker_image_name := pv.2.docker_image_name
          model_preset := d.model_preset
          num_multimer_predictions_per_model := d.num_multimer_predictions_per_model
          models_to_relax := d.models_to_relax
          alphaplots :=
            match d.alphaplots with
            | some flags => .opts flags
            | none => .absent
          start_time := clock
          job_dir := output_dir ++ "/" ++ name
          fasta_paths := output_dir ++ "/" ++ name ++ "/" ++ name ++ ".fasta" }

/-- The per-record writes of `generate_fasta` for one mapping entry, in item
order: `f.write(f">{name}\n{sequence}\n")`. -/
def writeItems : List (String × String) → String
  | [] => ""
  | (n, sq) :: rest => ">" ++ n ++ "\n" ++ sq ++ "\n" ++ writeItems rest

/-- The list comprehension of `generate_fasta` over the entries of the
`sequences` list: a bare scalar entry has no `.items()` and raises
`AttributeError` (`none`). -/
def fastaWrites : List SeqEntry → Option String
  | [] => some ""
  | .scalar _ :: _ => none
  | .map items :: rest =>
    match fastaWrites rest with
    | none => none
    | some r => some (writeItems items ++ r)

/-- Embedding of `AlphaFoldJob.generate_fasta` (lines 63-70): the content
written to the fasta file, or `none` when iterating the `sequences` attribute
raises (attribute absent, value not a list, or a non-mapping entry). -/
def generate_fasta : Option SeqsVal → Option String
  | none => none
  | some .nonList => none
  | some (.list entries) => fastaWrites entries

/-- Embedding of the `subprocess_list` built by `AlphaFoldJob.run_alphafold`
(lines 72-101): interpreter and pipeline script, the five always-present
parameters in the source's loop order, then each optional parameter appended
only when the attribute exists, in the source's loop order. -/
def run_alphafold_args (j : AlphaFoldJob) : List String :=
  let base := [j.alphafold_venv ++ "/bin/python3",
               j.alphafold_path ++ "/docker/run_docker.py",
               "--max_template_date=" ++ j.max_template_date,
               "--data_dir=" ++ j.data_dir,
               "--docker_user=" ++ j.docker_user,
               "--output_dir=" ++ j.output_dir,
               "--fasta_paths=" ++ j.fasta_paths]
  let l1 :=
    match j.model_preset with
    | some v => base ++ ["--model_preset=" ++ v]
    | none => base
  let l2 :=
    match j.num_multimer_predictions_per_model with
    | some v => l1 ++ ["--num_multimer_predictions_per_model=" ++ v]
    | none => l1
  let l3 :=
    match j.models_to_relax with
    | some v => l2 ++ ["--models_to_relax=" ++ v]
    | none => l2
  match j.docker_image_name with
  | some v => l3 ++ ["--docker_image_name=" ++ v]
  | none => l3

/-- Embedding of the `subprocess_list` built by `AlphaFoldJob.run_alphaplots`
(lines 107-131) given the settings `alphaplots` block: interpreter (venv
python or bare `python3`), tool path, input directory, the fixed `--yes`, then
the boolean flags `rmpkl` and `jsondump` in that order when present among the
job's alphaplots options. -/
def run_alphaplots_args (j : AlphaFoldJob) (ap : APSettings) (flags : List String) :
    List String :=
  let interpreter :=
    match ap.venv with
    | some v => v ++ "/bin/python3"
    | none => "python3"
  [interpreter, ap.path, "--input_dir=" ++ j.job_dir, "--yes"]
    ++ (if flags.contains "rmpkl" then ["--rmpkl"] else [])
    ++ (if flags.contains "jsondump" then ["--jsondump"] else [])

/-- The JSON object dumped by `AlphaFoldJob.print_job_details` (lines
103-105): the job's attribute dictionary, which by dump time also carries
`end_time` and `duration` set by `main` (lines 437-438). -/
structure Summary where
  job : AlphaFoldJob
  end_time : Nat
  duration : Nat
deriving DecidableEq

/-- One observable side effect of a pass of the worker loop, in order of
occurrence. `movedJob` records the target directory name of `move_job` (lines
332-336), which renames the descriptor into the sibling directory of that name
and creates it if absent; `ranPipeline` and `ranAlphaplots` record a child
process invocation's argument list and exit code; `wroteSummary` records the
JSON record path and content. -/
inductive Event where
  | wroteFasta (path : String) (content : String)
  | ranPipeline (args : List String) (exitCode : Int)
  | movedJob (target : String)
  | ranAlphaplots (args : List String) (exitCode : Int)
  | wroteSummary (path : String) (record : Summary)
deriving DecidableEq

/-- The environment of one loop pass: the exit codes the two external tools
would return, the number of ticks consumed by the blocking subprocess work,
and today's date string. The alphaplots exit code is part of the environment
even though `main` never reads it. -/
structure Env where
  pipelineExit : Int := 0
  alphaplotsExit : Int := 0
  elapsed : Nat := 0
  today : String := "2026-01-01"
deriving DecidableEq

/-- Result of one pass of the worker loop body on a selected job: the ordered
side effects, and whether the pass ended in an uncaught exception (which kills
the worker process) instead of reaching the next iteration. -/
structure IterOut where
  events : List Event
  crashed : Bool
deriving DecidableEq

/-- The events of a `job.run_alphaplots(settings)` call (lines 107-131): no
invocation when the job has no `alphaplots` attribute; the tool invocation
otherwise. A `disabled` (`False`) value would raise `TypeError` at the
membership test `param in self.alphaplots` (`none`); `main` never reaches that
case because it assigns `False` only on the non-plotting branch, which does
not call `run_alphaplots`. -/
def run_alphaplots_events (j : AlphaFoldJob) (ap : APSettings) (exitCode : Int) :
    Option (List Event) :=
  match j.alphaplots with
  | .absent => some []
  | .opts flags => some [.ranAlphaplots (run_alphaplots_args j ap flags) exitCode]
  | .disabled => none

/-- One pass of the `while True:` loop body of `main` (lines 421-441) on a
selected descriptor file that loaded to the mapping `d`, with file stem
`stem`; `resultsDir` is `args.directory / "results"` and `clock` the current
tick. Mirrors the source: `check_config` failure moves the descriptor to
`failed_jobs`; otherwise the job is built (`StopIteration`/`KeyError` crash
the worker), the fasta file is written (a crash there leaves no terminal
move), the pipeline runs, a nonzero exit moves the descriptor to
`failed_jobs` while a zero exit moves it to `done_jobs` and — when the
settings enabled plotting at startup — runs alphaplots; finally `end_time`,
`duration` are set and the summary is written. -/
def mainIteration (s : Settings) (stem : String) (d : Descriptor)
    (resultsDir : String) (env : Env) (clock : Nat) : IterOut :=
  if check_config d s then
    match create_alphafold_job stem d s resultsDir env.today clock with
    | none => ⟨[], true⟩
    | some job =>
      match generate_fasta job.sequences with
      | none => ⟨[], true⟩
      | some content =>
        let evFasta := Event.wroteFasta job.fasta_paths content
        let evPipe := Event.ranPipeline (run_alphafold_args job) env.pipelineExit
        let endTime := clock + env.elapsed + 1
        let summaryPath := job.job_dir ++ "/alphabuddy_job_details.json"
        if env.pipelineExit ≠ 0 then
          ⟨[evFasta, evPipe, .movedJob "failed_jobs",
            .wroteSummary summaryPath ⟨job, endTime, endTime - clock⟩], false⟩
        else
          match s.alphaplots with
          | some ap =>
            match run_alphaplots_events job ap env.alphaplotsExit with
            | none => ⟨[evFasta, evPipe, .movedJob "done_jobs"], true⟩
            | some apEvents =>
              ⟨[evFasta, evPipe, .movedJob "done_jobs"] ++ apEvents
                ++ [.wroteSummary summaryPath ⟨job, endTime, endTime - clock⟩], false⟩
          | none =>
            let job2 : AlphaFoldJob := { job with alphaplots := .disabled }
            ⟨[evFasta, evPipe, .movedJob "done_jobs",
              .wroteSummary summaryPath ⟨job2, endTime, endTime - clock⟩], false⟩
  else ⟨[.movedJob "failed_jobs"], false⟩

/-- Target directory name of a move event, if any. -/
def movedTarget : Event → Option String
  | .movedJob t => some t
  | _ => none

/-- The directory the descriptor file ends the pass in: the target of the last
move event, or `none` when the pass never moved it (it stays queued). -/
def finalMove (events : List Event) : Option String :=
  (events.filterMap movedTarget).getLast?

/-- Spec-side rendering of one fasta record, following the spec's words:
"a header line prefixed by a record marker followed by the sequence line". -/
def specFastaRecord (p : String × String) : String :=
  ">" ++ p.1 ++ "\n" ++ p.2 ++ "\n"

/-- Spec-side fasta content: the records of the given pairs in order, nothing
before, between, or after them beyond the records themselves. -/
def specFasta : List (String × String) → String
  | [] => ""
  | p :: rest => specFastaRecord p ++ specFasta rest

theorem writeItems_eq_specFasta : ∀ l, writeItems l = specFasta l
  | [] => rfl
  | (n, sq) :: rest => by
    simp only [writeItems, specFasta, specFastaRecord,
      writeItems_eq_specFasta rest]

theorem specFasta_append (l1 l2 : List (String × String)) :
    specFasta (l1 ++ l2) = specFasta l1 ++ specFasta l2 := by
  induction l1 with
  | nil => simp [specFasta, String.empty_append]
  | cons p rest ih => simp [specFasta, ih, String.append_assoc]

theorem fastaWrites_maps :
    ∀ entries : List (List (String × String)),
      fastaWrites (entries.map SeqEntry.map) = some (specFasta entries.flatten)
  | [] => rfl
  | items :: rest => by
    simp only [List.map_cons, fastaWrites, fastaWrites_maps rest,
      List.flatten_cons, specFasta_append, writeItems_eq_specFasta]

/-- C6: input-file generation writes, for each (name, sequence) pair in the
job's original order, exactly one header line (record marker plus name)
followed by one sequence line, preserving order exactly, with nothing emitted
after the final record: the emitted content is exactly the concatenation of
the records of the flattened pairs in order, and appending a final pair
appends exactly its record and nothing more. -/
theorem c6_fasta_generation :
    (∀ entries : List (List (String × String)),
      generate_fasta (some (SeqsVal.list (entries.map SeqEntry.map)))
        = some (specFasta entries.flatten)) ∧
    (∀ (pairs : List (String × String)) (p : String × String),
      specFasta (pairs ++ [p]) = specFasta pairs ++ specFastaRecord p) := by
  constructor
  · intro entries
    simp only [generate_fasta, fastaWrites_maps]
  · intro pairs p
    simp [specFasta_append, specFasta, String.append_empty]

/-- Spec-side rendering of an optional passthrough parameter: one
`--key=value` token when present, omitted entirely otherwise. -/
def optToken (key : String) (v : Option String) : List String :=
  match v with
  | some x => ["--" ++ key ++ "=" ++ x]
  | none => []

/-- Spec-side pipeline invocation, following the spec's words: the version's
interpreter and pipeline script, the five always-present `--key=value` tokens
in their fixed declared order, then the optional passthrough parameters in
their fixed declared order, each present only when resolved on the job. -/
def specPipelineInvocation (j : AlphaFoldJob) : List String :=
  [j.alphafold_venv ++ "/bin/python3",
   j.alphafold_path ++ "/docker/run_docker.py",
   "--max_template_date=" ++ j.max_template_date,
   "--data_dir=" ++ j.data_dir,
   "--docker_user=" ++ j.docker_user,
   "--output_dir=" ++ j.output_dir,
   "--fasta_paths=" ++ j.fasta_paths]
    ++ optToken "model_preset" j.model_preset
    ++ optToken "num_multimer_predictions_per_model"
        j.num_multimer_predictions_per_model
    ++ optToken "models_to_relax" j.models_to_relax
    ++ optToken "docker_image_name" j.docker_image_name

/-- C7: the pipeline invocation argument list consists of the version's
interpreter and pipeline script, the five always-present parameters as
`--key=value` tokens in their fixed order, then the optional passthrough
parameters in a fixed order, each emitted only if present on the resolved job
and omitted entirely otherwise. -/
theorem c7_pipeline_invocation (j : AlphaFoldJob) :
    run_alphafold_args j = specPipelineInvocation j := by
  unfold run_alphafold_args specPipelineInvocation optToken
  cases j.model_preset <;> cases j.num_multimer_predictions_per_model <;>
    cases j.models_to_relax <;> cases j.docker_image_name <;> simp

/-- Discriminator: did `get_next_job` move a file to `failed_jobs`? -/
def isMovedFailed : SelectResult → Bool
  | .movedFailed _ => true
  | _ => false

theorem sorted_head_min (j : QFile) (rest : List QFile)
    (hs : List.Sorted mleP (j :: rest)) :
    ∀ g ∈ j :: rest, j.mtime ≤ g.mtime := by
  intro g hg
  rcases List.mem_cons.mp hg with h | h
  · subst h; exact Nat.le_refl _
  · exact (List.sorted_cons.mp hs).1 g h

theorem selectLoop_fellThrough :
    ∀ l : List QFile, (∀ f ∈ l, isDictB f = true) →
    (∀ f ∈ l, urgentDict f = false) →
    selectLoop l = LoopResult.fellThrough := by
  intro l
  induction l with
  | nil => intro _ _; rfl
  | cons j rest ih =>
    intro hAll hNo
    have hd := hAll j (List.mem_cons_self j rest)
    have hu := hNo j (List.mem_cons_self j rest)
    have ihr := ih (fun f hf => hAll f (List.mem_cons_of_mem _ hf))
      (fun f hf => hNo f (List.mem_cons_of_mem _ hf))
    cases hp : j.parsed with
    | err => simp [isDictB, hp] at hd
    | nullDoc => simp [isDictB, hp] at hd
    | dict dct =>
      cases hq : dct.urgent with
      | none => simpa [selectLoop, hp, hq] using ihr
      | some b =>
        cases b with
        | false => simpa [selectLoop, hp, hq] using ihr
        | true => simp [urgentDict, hp, hq] at hu

theorem selectLoop_found_min :
    ∀ l : List QFile, (∀ f ∈ l, isDictB f = true) → List.Sorted mleP l →
    (∃ f ∈ l, urgentDict f = true) →
    ∃ f, selectLoop l = LoopResult.found f ∧ f ∈ l ∧ urgentDict f = true ∧
      ∀ g ∈ l, urgentDict g = true → f.mtime ≤ g.mtime := by
  intro l
  induction l with
  | nil =>
    intro _ _ hex
    obtain ⟨f, hf, _⟩ := hex
    exact absurd hf (List.not_mem_nil f)
  | cons j rest ih =>
    intro hAll hs hex
    have hd := hAll j (List.mem_cons_self j rest)
    cases hp : j.parsed with
    | err => simp [isDictB, hp] at hd
    | nullDoc => simp [isDictB, hp] at hd
    | dict dct =>
      cases hq : dct.urgent with
      | some b =>
        cases b with
        | true =>
          refine ⟨j, by simp [selectLoop, hp, hq], List.mem_cons_self j rest,
            by simp [urgentDict, hp, hq], ?_⟩
          intro g hg _
          exact sorted_head_min j rest hs g hg
        | false =>
          have hjns : urgentDict j = false := by simp [urgentDict, hp, hq]
          obtain ⟨f0, hf0, hf0u⟩ := hex
          have hf0r : f0 ∈ rest := by
            rcases List.mem_cons.mp hf0 with h | h
            · subst h; simp [hjns] at hf0u
            · exact h
          obtain ⟨f, hsl, hfr, hfu, hmin⟩ :=
            ih (fun g hg => hAll g (List.mem_cons_of_mem _ hg))
              (List.sorted_cons.mp hs).2 ⟨f0, hf0r, hf0u⟩
          refine ⟨f, by simpa [selectLoop, hp, hq] using hsl,
            List.mem_cons_of_mem _ hfr, hfu, ?_⟩
          intro g hg hgu
          rcases List.mem_cons.mp hg with h | h
          · subst h; simp [hjns] at hgu
          · exact hmin g h hgu
      | none =>
        have hjns : urgentDict j = false := by simp [urgentDict, hp, hq]
        obtain ⟨f0, hf0, hf0u⟩ := hex
        have hf0r : f0 ∈ rest := by
          rcases List.mem_cons.mp hf0 with h | h
          · subst h; simp [hjns] at hf0u
          · exact h
        obtain ⟨f, hsl, hfr, hfu, hmin⟩ :=
          ih (fun g hg => hAll g (List.mem_cons_of_mem _ hg))
            (List.sorted_cons.mp hs).2 ⟨f0, hf0r, hf0u⟩
        refine ⟨f, by simpa [selectLoop, hp, hq] using hsl,
          List.mem_cons_of_mem _ hfr, hfu, ?_⟩
        intro g hg hgu
        rcases List.mem_cons.mp hg with h | h
        · subst h; simp [hjns] at hgu
        · exact hmin g h hgu

theorem selectLoop_moved_err :
    ∀ (l : List QFile) (f : QFile), f ∈ l → f.parsed = ParseResult.err →
    (∀ g ∈ l, g ≠ f → isDictB g = true ∧ urgentDict g = false) →
    selectLoop l = LoopResult.movedFailed f := by
  intro l
  induction l with
  | nil => intro f hf _ _; exact absurd hf (List.not_mem_nil f)
  | cons j rest ih =>
    intro f hf herr hoth
    by_cases hj : j = f
    · subst hj; simp [selectLoop, herr]
    · obtain ⟨hd, hu⟩ := hoth j (List.mem_cons_self j rest) hj
      have hfr : f ∈ rest := by
        rcases List.mem_cons.mp hf with h | h
        · exact absurd h.symm hj
        · exact h
      have ihr := ih f hfr herr
        (fun g hg hne => hoth g (List.mem_cons_of_mem _ hg) hne)
      cases hp : j.parsed with
      | err => simp [isDictB, hp] at hd
      | nullDoc => simp [isDictB, hp] at hd
      | dict dct =>
        cases hq : dct.urgent with
        | none => simpa [selectLoop, hp, hq] using ihr
        | some b =>
          cases b with
          | false => simpa [selectLoop, hp, hq] using ihr
          | true => simp [urgentDict, hp, hq] at hu

/-- C2: for every non-empty set of queue descriptors that all load to
mappings, job selection returns an oldest-by-modification-time descriptor
among those flagged urgent when at least one is flagged urgent, and otherwise
an oldest-by-modification-time descriptor overall; with an empty queue it
signals no job. -/
theorem c2_selection_policy (queue : List QFile)
    (hAll : ∀ f ∈ queue, isDictB f = true) :
    (queue = [] → get_next_job queue = SelectResult.noJob) ∧
    (queue ≠ [] → ∃ f, get_next_job queue = SelectResult.found f ∧ f ∈ queue ∧
      ((∃ g ∈ queue, urgentDict g = true) →
        urgentDict f = true ∧
          ∀ g ∈ queue, urgentDict g = true → f.mtime ≤ g.mtime) ∧
      ((∀ g ∈ queue, urgentDict g = false) →
        ∀ g ∈ queue, f.mtime ≤ g.mtime)) := by
  constructor
  · rintro rfl; rfl
  · intro hne
    have hperm : List.Perm (List.insertionSort mleP queue) queue :=
      List.perm_insertionSort mleP queue
    have hsort : List.Sorted mleP (List.insertionSort mleP queue) :=
      List.sorted_insertionSort mleP queue
    have hneS : List.insertionSort mleP queue ≠ [] := by
      intro h
      rw [h] at hperm
      exact hne hperm.symm.eq_nil
    obtain ⟨j, rest, hq⟩ := List.exists_cons_of_ne_nil hneS
    have hpermS : List.Perm (j :: rest) queue := by rw [hq] at hperm; exact hperm
    have hsortS : List.Sorted mleP (j :: rest) := by rw [hq] at hsort; exact hsort
    have hAllS : ∀ f ∈ j :: rest, isDictB f = true :=
      fun f hf => hAll f (hpermS.mem_iff.mp hf)
    by_cases hu : ∃ g ∈ queue, urgentDict g = true
    · obtain ⟨g0, hg0, hg0u⟩ := hu
      obtain ⟨f, hsl, hfS, hfu, hmin⟩ := selectLoop_found_min (j :: rest) hAllS
        hsortS ⟨g0, hpermS.mem_iff.mpr hg0, hg0u⟩
      refine ⟨f, ?_, hpermS.mem_iff.mp hfS, ?_, ?_⟩
      · simp only [get_next_job, hq, hsl]
      · intro _
        exact ⟨hfu, fun g hg hgu => hmin g (hpermS.mem_iff.mpr hg) hgu⟩
      · intro hall
        have := hall g0 hg0
        simp [hg0u] at this
    · push_neg at hu
      have hNoS : ∀ f ∈ j :: rest, urgentDict f = false := by
        intro f hf
        have := hu f (hpermS.mem_iff.mp hf)
        simpa using this
      have hloop := selectLoop_fellThrough (j :: rest) hAllS hNoS
      refine ⟨j, ?_, hpermS.mem_iff.mp (List.mem_cons_self j rest), ?_, ?_⟩
      · simp only [get_next_job, hq, hloop]
      · intro hex
        obtain ⟨g0, hg0, hg0u⟩ := hex
        exact absurd hg0u (hu g0 hg0)
      · intro _ g hg
        exact sorted_head_min j rest hsortS g (hpermS.mem_iff.mpr hg)

/-- Queue file with modification time 1, loading to a mapping with no urgent
flag. -/
def qA : QFile := ⟨"a.yaml", 1, ParseResult.dict {}⟩

/-- Queue file with modification time 2, loading to a mapping flagged
urgent. -/
def qB : QFile := ⟨"b.yaml", 2, ParseResult.dict { urgent := some true }⟩

/-- Queue file with modification time 3, loading to a mapping with no urgent
flag. -/
def qC : QFile := ⟨"c.yaml", 3, ParseResult.dict {}⟩

/-- Witness for C2 at the spec's own example shape: files with times 1 < 2 < 3
where only the middle one is urgent. -/
theorem c2_selection_policy_witness :
    get_next_job [qA, qB, qC] = SelectResult.found qB ∧
    urgentDict qB = true ∧ qB.mtime ≤ qB.mtime := by
  obtain ⟨f, hfound, -, hurg, -⟩ :=
    (c2_selection_policy [qA, qB, qC] (by decide)).2 (by decide)
  have hfb : f = qB := by
    have hq : get_next_job [qA, qB, qC] = SelectResult.found qB := by decide
    rw [hq] at hfound
    exact (SelectResult.found.inj hfound).symm
  subst hfb
  obtain ⟨hu, hmin⟩ := hurg (by decide)
  exact ⟨hfound, hu, hmin qB (by decide) hu⟩

/-- Queue file whose YAML load raises, with the oldest modification time. -/
def qBad : QFile := ⟨"bad.yaml", 1, ParseResult.err⟩

/-- Queue file loading to a valid non-urgent mapping, newer than `qBad`. -/
def qGood : QFile := ⟨"good.yaml", 2, ParseResult.dict {}⟩

/-- Counterexample to C4 as stated: with an unparseable oldest candidate and a
parseable candidate remaining in the same pass, `get_next_job` moves the bad
file to `failed_jobs` and returns `False` (no job) instead of continuing with
the next candidate and returning it. -/
theorem c4_parse_failure_counterexample :
    get_next_job [qBad, qGood] = SelectResult.movedFailed qBad ∧
    isFound (get_next_job [qBad, qGood]) = false ∧
    isDictB qGood = true := by decide

/-- C4 amended: during one selection pass, when the mtime-ordered scan reaches
a candidate that fails to parse (here: the only non-mapping candidate, all
others being parseable and not urgent), that candidate is moved to the failed
directory and the pass ends signalling no job — even though parseable
candidates remain; having been moved, the failed candidate is absent from
later passes. -/
theorem c4_parse_failure_amended (queue : List QFile) (f : QFile)
    (hf : f ∈ queue) (herr : f.parsed = ParseResult.err)
    (hoth : ∀ g ∈ queue, g ≠ f → isDictB g = true ∧ urgentDict g = false) :
    get_next_job queue = SelectResult.movedFailed f := by
  have hperm : List.Perm (List.insertionSort mleP queue) queue :=
    List.perm_insertionSort mleP queue
  have hneS : List.insertionSort mleP queue ≠ [] := by
    intro h
    rw [h] at hperm
    rw [hperm.symm.eq_nil] at hf
    exact absurd hf (List.not_mem_nil f)
  obtain ⟨j, rest, hq⟩ := List.exists_cons_of_ne_nil hneS
  have hpermS : List.Perm (j :: rest) queue := by rw [hq] at hperm; exact hperm
  have hsl := selectLoop_moved_err (j :: rest) f (hpermS.mem_iff.mpr hf) herr
    (fun g hg hne => hoth g (hpermS.mem_iff.mp hg) hne)
  simp only [get_next_job, hq, hsl]

/-- Witness for the amended C4, with the parseable candidate listed first so
the modification-time sort places the unparseable one in front. -/
theorem c4_parse_failure_witness :
    get_next_job [qGood, qBad] = SelectResult.movedFailed qBad :=
  c4_parse_failure_amended [qGood, qBad] qBad (by decide) (by decide) (by decide)

/-- Queue file that parses successfully but yields no mapping: an empty YAML
file loads to `None`. -/
def qEmptyYaml : QFile := ⟨"empty.yaml", 1, ParseResult.nullDoc⟩

/-- C9: a queue file that parses successfully but does not yield a mapping (an
empty YAML file loads to `None`) makes the urgency membership test
`"urgent" in job_dict` raise an uncaught `TypeError`, crashing the worker
process, and the file is not routed to the failed directory. -/
theorem c9_nonmapping_crash :
    get_next_job [qEmptyYaml] = SelectResult.crash ∧
    isMovedFailed (get_next_job [qEmptyYaml]) = false := by decide

theorem checkVersionItems_ok (v : String) (e : VersionEntry) (dirs : List String)
    (h : e.data_dir ≠ "" ∧ dirs.contains e.data_dir = true ∧
         e.path ≠ "" ∧ dirs.contains e.path = true ∧
         e.venv ≠ "" ∧ dirs.contains e.venv = true) :
    checkVersionItems v e dirs = SettingsCheck.ok := by
  obtain ⟨h1, h2, h3, h4, h5, h6⟩ := h
  have m2 : e.data_dir ∈ dirs := by simpa using h2
  have m4 : e.path ∈ dirs := by simpa using h4
  have m6 : e.venv ∈ dirs := by simpa using h6
  simp [checkVersionItems, h1, h3, h5, m2, m4, m6]

theorem checkVersionsList_ok :
    ∀ (vs : List (String × VersionEntry)) (dirs : List String),
    (∀ p ∈ vs, checkVersionItems p.1 p.2 dirs = SettingsCheck.ok) →
    checkVersionsList vs dirs = SettingsCheck.ok := by
  intro vs
  induction vs with
  | nil => intro dirs _; rfl
  | cons p rest ih =>
    intro dirs h
    have hp := h p (List.mem_cons_self p rest)
    have hr := ih dirs (fun g hg => h g (List.mem_cons_of_mem _ hg))
    obtain ⟨v, e⟩ := p
    simpa [checkVersionsList, hp] using hr

/-- Version entry whose three required fields point at existing directories
and which is flagged default. -/
def vGood : VersionEntry :=
  { data_dir := "/data", path := "/af", venv := "/venv", default := true }

/-- Settings flagging TWO versions as default. -/
def sTwoDefaults : Settings := { versions := [("v1", vGood), ("v2", vGood)] }

/-- Settings flagging no version as default. -/
def sNoDefault : Settings :=
  { versions := [("v1", { vGood with default := false })] }

/-- Settings flagging exactly one version as default. -/
def sOneDefault : Settings := { versions := [("v1", vGood)] }

/-- The directories that exist on the modelled filesystem for the C3
instances. -/
def cDirs : List String := ["/data", "/af", "/venv"]

/-- Counterexample to C3 as stated: with two versions flagged default (and all
required directories present), `check_settings` succeeds — it does not exit —
because the code only takes the FIRST default-flagged version and never
rejects additional ones. -/
theorem c3_multiple_defaults_counterexample :
    check_settings sTwoDefaults cDirs = SettingsCheck.ok ∧
    countDefaults sTwoDefaults = 2 := by decide

/-- C3 amended: settings validation fails fatally (a `sys.exit(1)` taken
before any job is processed) when zero versions are flagged default; it
succeeds when at least one version is flagged default (the first such version
becoming the default) and every version has a non-empty id and its three
required path fields non-empty and referencing existing directories. More
than one default flag is not rejected. -/
theorem c3_default_validation_amended (s : Settings) (dirs : List String) :
    ((∀ p ∈ s.versions, p.2.default = false) →
      check_settings s dirs = SettingsCheck.exitNoDefault) ∧
    ((∃ p ∈ s.versions, p.2.default = true) →
     (∀ p ∈ s.versions, p.1 ≠ "") →
     (∀ p ∈ s.versions,
        p.2.data_dir ≠ "" ∧ dirs.contains p.2.data_dir = true ∧
        p.2.path ≠ "" ∧ dirs.contains p.2.path = true ∧
        p.2.venv ≠ "" ∧ dirs.contains p.2.venv = true) →
      check_settings s dirs = SettingsCheck.ok) := by
  constructor
  · intro hnone
    have hfind : s.versions.find? (fun p => p.2.default) = none := by
      rw [List.find?_eq_none]
      intro p hp
      simp [hnone p hp]
    simp [check_settings, hfind]
  · intro hex hnames hfields
    cases hfind : s.versions.find? (fun p => p.2.default) with
    | none =>
      obtain ⟨p, hp, hpd⟩ := hex
      have := List.find?_eq_none.mp hfind p hp
      simp [hpd] at this
    | some p =>
      have hmem := List.mem_of_find?_eq_some hfind
      have hname := hnames p hmem
      have hok := checkVersionsList_ok s.versions dirs
        (fun g hg => checkVersionItems_ok g.1 g.2 dirs (hfields g hg))
      simp [check_settings, hfind, hname, hok]

/-- Witness for the amended C3: zero defaults exit fatally; one default with
all directories present passes. -/
theorem c3_default_validation_witness :
    check_settings sNoDefault cDirs = SettingsCheck.exitNoDefault ∧
    check_settings sOneDefault cDirs = SettingsCheck.ok :=
  ⟨(c3_default_validation_amended sNoDefault cDirs).1 (by decide),
   (c3_default_validation_amended sOneDefault cDirs).2 (by decide) (by decide)
     (by decide)⟩

/-- Environment with pipeline exit code 0 and no elapsed ticks. -/
def envZero : Env := {}

/-- C5: for every descriptor mapping with missing or empty sequence data, or
with a version id not present among the settings versions, validation marks it
invalid and the loop pass consists of exactly one effect — the move of the
descriptor file to the failed directory — with no resolution or pipeline
execution attempted and no crash, so the worker continues with the next
iteration. -/
theorem c5_invalid_descriptor_failed (s : Settings) (stem : String)
    (d : Descriptor) (resultsDir : String) (env : Env) (clock : Nat)
    (hbad : d.sequences = none ∨ d.sequences = some (SeqsVal.list []) ∨
      ∃ v, d.version = some v ∧ s.versions.any (fun p => p.1 == v) = false) :
    mainIteration s stem d resultsDir env clock =
      ⟨[Event.movedJob "failed_jobs"], false⟩ := by
  have hcfg : check_config d s = false := by
    rcases hbad with h | h | ⟨v, hv, hany⟩
    · have hseq : check_config_sequences d = false := by
        simp [check_config_sequences, h]
      cases hver : d.version with
      | none => simp [check_config, hver, hseq]
      | some v => simp [check_config, hver, hseq]
    · have hseq : check_config_sequences d = false := by
        simp [check_config_sequences, h]
      cases hver : d.version with
      | none => simp [check_config, hver, hseq]
      | some v => simp [check_config, hver, hseq]
    · simp [check_config, hv, hany]
  simp [mainIteration, hcfg]

/-- Descriptor with no `sequences` key at all. -/
def dNoSeq : Descriptor := {}

/-- Witness for C5: a descriptor without sequence data is routed to the failed
directory and nothing else happens. -/
theorem c5_invalid_descriptor_failed_witness :
    mainIteration sOneDefault "job1" dNoSeq "/rd" envZero 0 =
      ⟨[Event.movedJob "failed_jobs"], false⟩ :=
  c5_invalid_descriptor_failed sOneDefault "job1" dNoSeq "/rd" envZero 0
    (Or.inl rfl)

/-- Descriptor whose `sequences` is a non-empty list containing a bare string
entry instead of a name-to-sequence mapping. -/
def dScalarSeq : Descriptor :=
  { sequences := some (SeqsVal.list [SeqEntry.scalar "MKT"]) }

/-- C10: a descriptor whose sequences value is a non-empty list with a bare
string entry passes validation (`check_config` returns `True`), and the loop
pass then crashes in input-file generation (iterating `.items()` of a string)
before producing any effect — in particular the descriptor is never moved to
the failed directory. -/
theorem c10_scalar_sequence_crash :
    check_config dScalarSeq sOneDefault = true ∧
    (mainIteration sOneDefault "job1" dScalarSeq "/rd" envZero 0).crashed
      = true ∧
    (mainIteration sOneDefault "job1" dScalarSeq "/rd" envZero 0).events
      = [] := by decide

theorem create_job_fields (stem : String) (d : Descriptor) (s : Settings)
    (resultsDir today : String) (clock : Nat) (job : AlphaFoldJob)
    (h : create_alphafold_job stem d s resultsDir today clock = some job) :
    job.start_time = clock ∧ job.alphaplots ≠ APField.disabled := by
  unfold create_alphafold_job at h
  cases h1 : s.versions.find? (fun p => p.2.default) with
  | none => rw [h1] at h; cases h
  | some pd =>
    rw [h1] at h
    simp only at h
    cases h2 : s.versions.find? (fun p => p.1 == d.version.getD pd.1) with
    | none => rw [h2] at h; cases h
    | some pv =>
      rw [h2] at h
      simp only at h
      injection h with h
      subst h
      refine ⟨rfl, ?_⟩
      cases d.alphaplots <;> simp

/-- The terminal shape required of a successful pass's event list: somewhere a
move of the descriptor into the done directory, and strictly after it the
summary record written at `path`, whose start tick precedes its end tick,
whose duration is their difference, and whose job fields are those of `jb`
(up to the `alphaplots := False` assignment `main` makes when plotting is
globally disabled). -/
def doneMoveThenSummaryFor (evs : List Event) (path : String)
    (jb : AlphaFoldJob) : Prop :=
  ∃ pre mid sm,
    evs = pre ++ Event.movedJob "done_jobs"
      :: mid ++ [Event.wroteSummary path sm] ∧
    sm.job.start_time < sm.end_time ∧
    sm.duration = sm.end_time - sm.job.start_time ∧
    (sm.job = jb ∨ sm.job = { jb with alphaplots := APField.disabled })

/-- C1: for every processed job (validation passed, the job was built and its
input file written), a pipeline exit code of 0 moves the descriptor into the
done terminal directory and strictly afterwards writes the JSON summary —
carrying every resolved job field plus start time, end time and duration,
with start strictly before end — into the job's output directory; a nonzero
exit code moves the descriptor into the failed terminal directory. -/
theorem c1_terminal_routing (s : Settings) (stem : String) (d : Descriptor)
    (resultsDir : String) (env : Env) (clock : Nat) (job : AlphaFoldJob)
    (content : String)
    (hcfg : check_config d s = true)
    (hjob : create_alphafold_job stem d s resultsDir env.today clock = some job)
    (hfasta : generate_fasta job.sequences = some content) :
    (env.pipelineExit = 0 →
      doneMoveThenSummaryFor (mainIteration s stem d resultsDir env clock).events
        (job.job_dir ++ "/alphabuddy_job_details.json") job) ∧
    (env.pipelineExit ≠ 0 →
      Event.movedJob "failed_jobs"
        ∈ (mainIteration s stem d resultsDir env clock).events) := by
  obtain ⟨hst, hnd⟩ :=
    create_job_fields stem d s resultsDir env.today clock job hjob
  constructor
  · intro h0
    cases hap : s.alphaplots with
    | none =>
      refine ⟨[Event.wroteFasta job.fasta_paths content,
               Event.ranPipeline (run_alphafold_args job) env.pipelineExit], [],
              ⟨{ job with alphaplots := APField.disabled },
               clock + env.elapsed + 1, clock + env.elapsed + 1 - clock⟩,
              ?_, ?_, ?_, ?_⟩
      · simp [mainIteration, hcfg, hjob, hfasta, h0, hap]
      · simp only []
        rw [hst]
        omega
      · simp only []
        rw [hst]
      · right; rfl
    | some ap =>
      cases hja : job.alphaplots with
      | disabled => exact absurd hja hnd
      | absent =>
        refine ⟨[Event.wroteFasta job.fasta_paths content,
                 Event.ranPipeline (run_alphafold_args job) env.pipelineExit], [],
                ⟨job, clock + env.elapsed + 1, clock + env.elapsed + 1 - clock⟩,
                ?_, ?_, ?_, ?_⟩
        · simp [mainIteration, hcfg, hjob, hfasta, h0, hap,
            run_alphaplots_events, hja]
        · simp only []
          rw [hst]
          omega
        · simp only []
          rw [hst]
        · left; rfl
      | opts flags =>
        refine ⟨[Event.wroteFasta job.fasta_paths content,
                 Event.ranPipeline (run_alphafold_args job) env.pipelineExit],
                [Event.ranAlphaplots (run_alphaplots_args job ap flags)
                  env.alphaplotsExit],
                ⟨job, clock + env.elapsed + 1, clock + env.elapsed + 1 - clock⟩,
                ?_, ?_, ?_, ?_⟩
        · simp [mainIteration, hcfg, hjob, hfasta, h0, hap,
            run_alphaplots_events, hja]
        · simp only []
          rw [hst]
          omega
        · simp only []
          rw [hst]
        · left; rfl
  · intro hne
    simp [mainIteration, hcfg, hjob, hfasta, hne]

/-- Descriptor with one valid (name, sequence) mapping entry and nothing
else. -/
def dGood : Descriptor :=
  { sequences := some (SeqsVal.list [SeqEntry.map [("A", "MKT")]]) }

/-- The job `create_alphafold_job` resolves from `dGood` under `sOneDefault`
with stem `job1`, results directory `/rd`, today `2026-01-01` and tick 0. -/
def cJob : AlphaFoldJob :=
  { version := "v1"
    name := "job1"
    sequences := some (SeqsVal.list [SeqEntry.map [("A", "MKT")]])
    max_template_date := "2026-01-01"
    output_dir := "/rd"
    data_dir := "/data"
    alphafold_path := "/af"
    alphafold_venv := "/venv"
    docker_user := "root"
    docker_image_name := none
    model_preset := none
    num_multimer_predictions_per_model := none
    models_to_relax := none
    alphaplots := APField.absent
    start_time := 0
    job_dir := "/rd/job1"
    fasta_paths := "/rd/job1/job1.fasta" }

/-- Witness for C1: on a concrete valid job with pipeline exit code 0, the
pass moves the descriptor to the done directory and strictly afterwards
writes the summary into the job's output directory. -/
theorem c1_terminal_routing_witness :
    doneMoveThenSummaryFor
      (mainIteration sOneDefault "job1" dGood "/rd" envZero 0).events
      (cJob.job_dir ++ "/alphabuddy_job_details.json") cJob :=
  (c1_terminal_routing sOneDefault "job1" dGood "/rd" envZero 0 cJob
    ">A\nMKT\n" (by decide) (by decide) (by decide)).1 rfl

/-- C8: the post-processing tool is invoked during a pass only when the
pipeline exited with code 0 and post-processing is globally enabled, and its
exit status is never inspected: for every alternative post-processing exit
code the pass ends with the descriptor still in the done directory and no
crash — the job's terminal state is unchanged regardless of the
post-processing outcome. -/
theorem c8_alphaplots_fire_and_forget (s : Settings) (stem : String)
    (d : Descriptor) (resultsDir : String) (env : Env) (clock : Nat)
    (args : List String) (code : Int)
    (hmem : Event.ranAlphaplots args code
      ∈ (mainIteration s stem d resultsDir env clock).events) :
    env.pipelineExit = 0 ∧ s.alphaplots.isSome = true ∧
    ∀ x : Int,
      finalMove (mainIteration s stem d resultsDir
        { env with alphaplotsExit := x } clock).events = some "done_jobs" ∧
      (mainIteration s stem d resultsDir
        { env with alphaplotsExit := x } clock).crashed = false := by
  by_cases hcfg : check_config d s = true
  · cases hjob : create_alphafold_job stem d s resultsDir env.today clock with
    | none => simp [mainIteration, hcfg, hjob] at hmem
    | some job =>
      cases hfasta : generate_fasta job.sequences with
      | none => simp [mainIteration, hcfg, hjob, hfasta] at hmem
      | some content =>
        by_cases h0 : env.pipelineExit = 0
        · cases hap : s.alphaplots with
          | none => simp [mainIteration, hcfg, hjob, hfasta, h0, hap] at hmem
          | some ap =>
            cases hja : job.alphaplots with
            | absent =>
              simp [mainIteration, hcfg, hjob, hfasta, h0, hap,
                run_alphaplots_events, hja] at hmem
            | disabled =>
              simp [mainIteration, hcfg, hjob, hfasta, h0, hap,
                run_alphaplots_events, hja] at hmem
            | opts flags =>
              refine ⟨h0, by simp [hap], ?_⟩
              intro x
              constructor
              · simp [mainIteration, hcfg, hjob, hfasta, h0, hap,
                  run_alphaplots_events, hja, finalMove, movedTarget]
              · simp [mainIteration, hcfg, hjob, hfasta, h0, hap,
                  run_alphaplots_events, hja]
        · simp [mainIteration, hcfg, hjob, hfasta, h0] at hmem
  · rw [Bool.not_eq_true] at hcfg
    simp [mainIteration, hcfg] at hmem

/-- The `alphaplots` settings block used in the C8 witness. -/
def apBlock : APSettings := { path := "/tools/alphaplots.py", venv := none }

/-- Settings with one default version and post-processing enabled. -/
def sPlot : Settings :=
  { versions := [("v1", vGood)], alphaplots := some apBlock }

/-- Descriptor with one valid sequence entry and an alphaplots options block
containing the `rmpkl` flag. -/
def dPlot : Descriptor :=
  { sequences := some (SeqsVal.list [SeqEntry.map [("A", "MKT")]])
    alphaplots := some ["rmpkl"] }

/-- Witness for C8: on a concrete pass that does invoke the post-processing
tool, the pipeline exit was 0, plotting was enabled, and with an arbitrary
nonzero post-processing exit code (here 5) the descriptor still ends in the
done directory without a crash. -/
theorem c8_alphaplots_fire_and_forget_witness :
    envZero.pipelineExit = 0 ∧ sPlot.alphaplots.isSome = true ∧
    finalMove (mainIteration sPlot "job1" dPlot "/rd"
      { envZero with alphaplotsExit := 5 } 0).events = some "done_jobs" ∧
    (mainIteration sPlot "job1" dPlot "/rd"
      { envZero with alphaplotsExit := 5 } 0).crashed = false := by
  have h := c8_alphaplots_fire_and_forget sPlot "job1" dPlot "/rd" envZero 0
    ["python3", "/tools/alphaplots.py", "--input_dir=/rd/job1", "--yes",
     "--rmpkl"] 0 (by decide)
  exact ⟨h.1, h.2.1, (h.2.2 5).1, (h.2.2 5).2⟩
